import Mathlib

/-!
# Verification of the repair-request service (src/main.py)

Shallow embedding of the FastAPI/SQLAlchemy service in `src/main.py`.
The database is modelled as explicit state: a list of `User` rows and a
list of `RepairRequest` rows kept in insertion order (SQLite assigns
autoincrementing integer primary keys and, with no ORDER BY, returns rows
in insertion order), together with the next primary key for each table.
Timestamps are modelled as natural numbers; the bcrypt hash of the
`passlib` context is abstracted as a function parameter `hashFn`.
Each route handler becomes a pure function from its inputs and the
database state to a result; handlers that can raise (`HTTPException 404`,
or a constraint violation raised by the storage layer at `db.commit()`)
return `Except`.
-/

namespace RepairService

/-- Python truthiness of a string value (`if value:`): only the empty
string is falsy. -/
def pyTruthyStr (s : String) : Bool :=
  s != ""

/-- Python truthiness of an `Optional[int]` value (`if value:`): `None`
and `0` are falsy, every other integer is truthy. -/
def pyTruthyOptInt (o : Option Int) : Bool :=
  match o with
  | none => false
  | some n => n != 0

/-- A row of the `users` table (src/main.py lines 18-24): integer primary
key, unique username, bcrypt-hashed password, free-form role. -/
structure User where
  id : Nat
  username : String
  hashed_password : String
  role : String
  deriving DecidableEq, Repr

/-- A row of the `repair_requests` table (src/main.py lines 26-38).
`request_date` is a timestamp (modelled as `Nat`), `status` is a string
column declared as `Enum("новая", "в процессе", "завершена")`, and
`master_id` is a nullable integer foreign key to `users.id`. -/
structure RepairRequest where
  id : Nat
  request_date : Nat
  equipment_type : String
  model : String
  problem_description : String
  client_name : String
  phone_number : String
  status : String
  master_id : Option Int
  deriving DecidableEq, Repr

/-- The `RepairRequestCreate` request body (src/main.py lines 42-49):
all fields are plain strings except the optional `master_id`. -/
structure RepairRequestCreate where
  equipment_type : String
  model : String
  problem_description : String
  client_name : String
  phone_number : String
  status : String
  master_id : Option Int := none
  deriving DecidableEq, Repr

/-- The `UserCreate` request body (src/main.py lines 58-61), also the
declared `response_model` of the user-creation route. -/
structure UserCreate where
  username : String
  password : String
  role : String
  deriving DecidableEq, Repr

/-- The whole database state: the two tables in insertion order plus the
next autoincrement primary key of each. -/
structure DB where
  users : List User
  requests : List RepairRequest
  next_user_id : Nat
  next_request_id : Nat
  deriving DecidableEq, Repr

/-- The freshly created database (`Base.metadata.create_all`,
src/main.py line 40): both tables empty, SQLite keys start at 1. -/
def DB.empty : DB :=
  { users := [], requests := [], next_user_id := 1, next_request_id := 1 }

/-- Failures a handler can surface: an `HTTPException` raised by the
handler itself, or a constraint violation raised by the storage layer
when the session is committed. -/
inductive DbError where
  | httpException (code : Nat) (detail : String)
  | integrityError
  deriving DecidableEq, Repr

/-- `hash_password` (src/main.py lines 70-71) delegates to
`pwd_context.hash`; the bcrypt library hash is abstracted as the
parameter `hashFn`. -/
def hash_password (hashFn : String → String) (password : String) : String :=
  hashFn password

/-- The value set of the `status` column's `Enum` declaration
(src/main.py line 36). -/
def statusEnumValues : List String :=
  ["новая", "в процессе", "завершена"]

/-- Modelled from the spec: the enforcement of the `status` enum happens
in the storage layer (SQLAlchemy/SQLite), which is library code not under
src/; only the `Column(Enum("новая", "в процессе", "завершена"))`
declaration is in the source (src/main.py line 36). Per the spec, a
status outside this set "is expected to fail at the storage boundary, not
be rejected earlier with a clear error", so committing a row is modelled
as accepting exactly the declared values. -/
def storageAcceptsStatus (s : String) : Bool :=
  statusEnumValues.contains s

/-- `create_user` (src/main.py lines 73-79): build a `User` row with the
hashed password, add it and commit. The `username` column is declared
`unique=True` (src/main.py line 22), so the commit raises an integrity
error when the username already exists; otherwise the new row (with its
assigned primary key) is returned. -/
def create_user (hashFn : String → String) (user : UserCreate) (db : DB) :
    Except DbError (DB × User) :=
  if db.users.any (fun u => u.username == user.username) then
    .error .integrityError
  else
    let db_user : User :=
      { id := db.next_user_id
        username := user.username
        hashed_password := hash_password hashFn user.password
        role := user.role }
    .ok ({ db with
            users := db.users ++ [db_user]
            next_user_id := db.next_user_id + 1 },
         db_user)

/-- `create_request` (src/main.py lines 82-88): build a `RepairRequest`
row from the payload fields, add it and commit; `request_date` takes its
column default `datetime.utcnow` (src/main.py line 30), modelled by the
`now` argument. The commit enforces the status enum
(`storageAcceptsStatus`). -/
def create_request (request : RepairRequestCreate) (now : Nat) (db : DB) :
    Except DbError (DB × RepairRequest) :=
  if storageAcceptsStatus request.status then
    let db_request : RepairRequest :=
      { id := db.next_request_id
        request_date := now
        equipment_type := request.equipment_type
        model := request.model
        problem_description := request.problem_description
        client_name := request.client_name
        phone_number := request.phone_number
        status := request.status
        master_id := request.master_id }
    .ok ({ db with
            requests := db.requests ++ [db_request]
            next_request_id := db.next_request_id + 1 },
         db_request)
  else
    .error .integrityError

/-- `read_requests` (src/main.py lines 91-93):
`db.query(RepairRequest).offset(skip).limit(limit).all()` — skip the
first `skip` rows of the table and return at most `limit` of the rest.
The route defaults are `skip = 0`, `limit = 10`. -/
def read_requests (skip : Nat) (limit : Nat) (db : DB) : List RepairRequest :=
  (db.requests.drop skip).take limit

/-- `read_request` (src/main.py lines 96-101): first row whose `id`
equals `request_id`, or `HTTPException(404, "Request not found")`. -/
def read_request (request_id : Nat) (db : DB) : Except DbError RepairRequest :=
  match db.requests.find? (fun r => r.id == request_id) with
  | some db_request => .ok db_request
  | none => .error (.httpException 404 "Request not found")

/-- The field loop of `update_request` (src/main.py lines 109-110):
`setattr(db_request, var, value) if value else None` — each payload field
overwrites the stored field only when the payload value is Python-truthy. -/
def setFieldsIfTruthy (db_request : RepairRequest) (request : RepairRequestCreate) :
    RepairRequest :=
  { db_request with
    equipment_type :=
      if pyTruthyStr request.equipment_type then request.equipment_type
      else db_request.equipment_type
    model :=
      if pyTruthyStr request.model then request.model
      else db_request.model
    problem_description :=
      if pyTruthyStr request.problem_description then request.problem_description
      else db_request.problem_description
    client_name :=
      if pyTruthyStr request.client_name then request.client_name
      else db_request.client_name
    phone_number :=
      if pyTruthyStr request.phone_number then request.phone_number
      else db_request.phone_number
    status :=
      if pyTruthyStr request.status then request.status
      else db_request.status
    master_id :=
      if pyTruthyOptInt request.master_id then request.master_id
      else db_request.master_id }

/-- `update_request` (src/main.py lines 104-113): look up the row (404 if
absent), overwrite each field whose payload value is truthy, commit. The
commit enforces the status enum on the updated row
(`storageAcceptsStatus`); on success the table holds the updated row in
place of the old one. -/
def update_request (request_id : Nat) (request : RepairRequestCreate) (db : DB) :
    Except DbError (DB × RepairRequest) :=
  match db.requests.find? (fun r => r.id == request_id) with
  | none => .error (.httpException 404 "Request not found")
  | some db_request =>
    let updated := setFieldsIfTruthy db_request request
    if storageAcceptsStatus updated.status then
      .ok ({ db with
              requests := db.requests.map
                (fun r => if r.id == request_id then updated else r) },
           updated)
    else
      .error .integrityError

/-- The statistics response shape (src/main.py lines 120-123). -/
structure Statistics where
  completed_requests_count : Nat
  average_time : String
  deriving DecidableEq, Repr

/-- `get_statistics` (src/main.py lines 116-123): count the rows whose
status is "завершена"; `average_time` is the constant placeholder
"Ожидание реализации". -/
def get_statistics (db : DB) : Statistics :=
  { completed_requests_count :=
      (db.requests.filter (fun r => r.status == "завершена")).length
    average_time := "Ожидание реализации" }

/-- A state-mutating request to the service: one of the three routes that
write to the database (user creation, repair-request creation,
repair-request update). The read-only routes do not change the state. -/
inductive Op where
  | createUser (user : UserCreate)
  | createRequest (request : RepairRequestCreate) (now : Nat)
  | updateRequest (request_id : Nat) (request : RepairRequestCreate)
  deriving Repr

/-- Run one mutating request against the state. A failed request leaves
the database unchanged: the uncommitted session changes are discarded
when `get_db` closes the session (src/main.py lines 63-68). -/
def execOp (hashFn : String → String) (db : DB) : Op → DB
  | .createUser user =>
    match create_user hashFn user db with
    | .ok (db', _) => db'
    | .error _ => db
  | .createRequest request now =>
    match create_request request now db with
    | .ok (db', _) => db'
    | .error _ => db
  | .updateRequest request_id request =>
    match update_request request_id request db with
    | .ok (db', _) => db'
    | .error _ => db

/-- A reachable database state: the result of running a sequence of
mutating requests against the freshly created database. -/
def execOps (hashFn : String → String) (ops : List Op) : DB :=
  ops.foldl (execOp hashFn) DB.empty

/-! ## Concrete values used by the witnesses -/

/-- A concrete stand-in for the bcrypt hash in witnesses: it prefixes the
modular-crypt header, so its output is never equal to its input. -/
def exampleHashFn (p : String) : String :=
  "$2b$12$" ++ p

/-- The creation payload of the spec's end-to-end example, with
`problem_description` from the update example and an assigned master. -/
def exCreatePayload : RepairRequestCreate :=
  { equipment_type := "laptop"
    model := "X1"
    problem_description := "screen cracked"
    client_name := "A. Ivanov"
    phone_number := "555-0100"
    status := "новая"
    master_id := some 7 }

/-- The row produced by inserting `exCreatePayload` at time 100. -/
def exRow : RepairRequest :=
  { id := 1
    request_date := 100
    equipment_type := "laptop"
    model := "X1"
    problem_description := "screen cracked"
    client_name := "A. Ivanov"
    phone_number := "555-0100"
    status := "новая"
    master_id := some 7 }

/-- A database holding only `exRow`. -/
def exDb : DB :=
  { users := [], requests := [exRow], next_user_id := 1, next_request_id := 2 }

/-- An update payload whose only truthy field is the status. -/
def exUpdatePayload : RepairRequestCreate :=
  { equipment_type := ""
    model := ""
    problem_description := ""
    client_name := ""
    phone_number := ""
    status := "в процессе"
    master_id := none }

/-- The result of applying `exUpdatePayload` to `exRow`: only the status
changes. -/
def exRowUpdated : RepairRequest :=
  { exRow with status := "в процессе" }

/-- The database after the update. -/
def exDbUpdated : DB :=
  { exDb with requests := [exRowUpdated] }

/-- A creation payload with the given status and problem description. -/
def exCreateWith (s : String) (d : String) : RepairRequestCreate :=
  { equipment_type := "printer"
    model := "M2"
    problem_description := d
    client_name := "B. Petrov"
    phone_number := "555-0101"
    status := s
    master_id := none }

/-- The scenario of the spec's statistics and pagination examples: create
3 requests with status "завершена" and 2 with status "новая". -/
def exOps5 : List Op :=
  [ .createRequest (exCreateWith "завершена" "jam") 1
  , .createRequest (exCreateWith "завершена" "noise") 2
  , .createRequest (exCreateWith "завершена" "smoke") 3
  , .createRequest (exCreateWith "новая" "slow") 4
  , .createRequest (exCreateWith "новая" "dead") 5 ]

/-- The database reached by the five creations of `exOps5`. -/
def exampleDb5 : DB :=
  execOps exampleHashFn exOps5

/-- A concrete user-creation payload. -/
def exAliceCreate : UserCreate :=
  { username := "alice", password := "secret123", role := "admin" }

/-- The row persisted for `exAliceCreate` under `exampleHashFn`. -/
def exAliceRow : User :=
  { id := 1, username := "alice", hashed_password := "$2b$12$secret123", role := "admin" }

/-- The database after creating Alice. -/
def exDbAlice : DB :=
  { users := [exAliceRow], requests := [], next_user_id := 2, next_request_id := 1 }

/-! ## Helper lemmas -/

/-- `exampleHashFn` never returns its input: its output is 7 characters
longer. -/
theorem exampleHashFn_ne (p : String) : exampleHashFn p ≠ p := by
  intro h
  have hlen : ("$2b$12$" ++ p).length = p.length := congrArg String.length h
  have h7 : ("$2b$12$" : String).length = 7 := rfl
  rw [String.length_append, h7] at hlen
  omega

/-- Python truthiness of a string means it is nonempty. -/
theorem pyTruthyStr_iff (s : String) : pyTruthyStr s = true ↔ s ≠ "" := by
  simp [pyTruthyStr]

/-- Python truthiness of an optional integer means it is neither `None`
nor `0`. -/
theorem pyTruthyOptInt_iff (o : Option Int) :
    pyTruthyOptInt o = true ↔ o ≠ none ∧ o ≠ some 0 := by
  cases o with
  | none => simp [pyTruthyOptInt]
  | some n => simp [pyTruthyOptInt]

/-- The storage layer accepts exactly the declared enum values. -/
theorem storageAcceptsStatus_iff (s : String) :
    storageAcceptsStatus s = true ↔ s ∈ statusEnumValues := by
  simp [storageAcceptsStatus, List.contains_iff_exists_mem_beq]

/-- An invariant that holds initially and is preserved by every mutating
request holds in every reachable state. -/
theorem execOps_invariant {P : DB → Prop} (hashFn : String → String)
    (hstep : ∀ db op, P db → P (execOp hashFn db op)) (h0 : P DB.empty)
    (ops : List Op) : P (execOps hashFn ops) := by
  suffices h : ∀ (l : List Op) (db : DB), P db → P (l.foldl (execOp hashFn) db) from
    h ops DB.empty h0
  intro l
  induction l with
  | nil => intro db h; exact h
  | cons op rest ih => intro db h; exact ih _ (hstep db op h)

/-- Inversion of a successful `create_user`: the username was free, the
returned row carries the hashed password, and the state gained exactly
that row. -/
theorem create_user_inv (hashFn : String → String) (user : UserCreate)
    (db db' : DB) (row : User)
    (hok : create_user hashFn user db = .ok (db', row)) :
    db.users.any (fun u => u.username == user.username) = false ∧
    row = { id := db.next_user_id
            username := user.username
            hashed_password := hash_password hashFn user.password
            role := user.role } ∧
    db' = { db with
             users := db.users ++ [row]
             next_user_id := db.next_user_id + 1 } := by
  simp only [create_user] at hok
  split at hok
  · exact absurd hok (by simp)
  · rename_i hany
    simp only [Except.ok.injEq, Prod.mk.injEq] at hok
    obtain ⟨h1, h2⟩ := hok
    subst h2
    exact ⟨Bool.of_not_eq_true hany, rfl, h1.symm⟩

/-- Inversion of a successful `create_request`: the status was accepted
by the storage layer, the returned row copies the payload with the fresh
id and the timestamp, and the state gained exactly that row. -/
theorem create_request_inv (request : RepairRequestCreate) (now : Nat)
    (db db' : DB) (row : RepairRequest)
    (hok : create_request request now db = .ok (db', row)) :
    storageAcceptsStatus request.status = true ∧
    row = { id := db.next_request_id
            request_date := now
            equipment_type := request.equipment_type
            model := request.model
            problem_description := request.problem_description
            client_name := request.client_name
            phone_number := request.phone_number
            status := request.status
            master_id := request.master_id } ∧
    db' = { db with
             requests := db.requests ++ [row]
             next_request_id := db.next_request_id + 1 } := by
  simp only [create_request] at hok
  split at hok
  · rename_i hacc
    simp only [Except.ok.injEq, Prod.mk.injEq] at hok
    obtain ⟨h1, h2⟩ := hok
    subst h2
    exact ⟨hacc, rfl, h1.symm⟩
  · exact absurd hok (by simp)

/-- Inversion of a successful `update_request`: a row with the requested
id was found, the returned row is the truthy-merge of that row with the
payload, its status was accepted by the storage layer, and the table has
that row written in place. -/
theorem update_request_inv (request_id : Nat) (request : RepairRequestCreate)
    (db db' : DB) (updated : RepairRequest)
    (hok : update_request request_id request db = .ok (db', updated)) :
    ∃ db_request : RepairRequest,
      db.requests.find? (fun r => r.id == request_id) = some db_request ∧
      updated = setFieldsIfTruthy db_request request ∧
      storageAcceptsStatus updated.status = true ∧
      db' = { db with
               requests := db.requests.map
                 (fun r => if r.id == request_id then updated else r) } := by
  cases hfind : db.requests.find? (fun r => r.id == request_id) with
  | none =>
    simp only [update_request, hfind] at hok
    exact absurd hok (by simp)
  | some db_request =>
    simp only [update_request, hfind] at hok
    split at hok
    · rename_i hacc
      simp only [Except.ok.injEq, Prod.mk.injEq] at hok
      obtain ⟨h1, h2⟩ := hok
      subst h2
      exact ⟨db_request, rfl, rfl, hacc, h1.symm⟩
    · exact absurd hok (by simp)

/-! ## Claims -/

/-- Claim C1: for every existing repair request and every update payload,
`update_request` overwrites a stored field with the supplied value only
if that value is truthy; a falsy supplied value (empty string, zero,
`None`) leaves the existing stored value of that field unchanged. -/
theorem update_request_overwrites_only_truthy
    (db : DB) (request_id : Nat) (request : RepairRequestCreate)
    (db_request : RepairRequest) (db' : DB) (updated : RepairRequest)
    (hfind : db.requests.find? (fun r => r.id == request_id) = some db_request)
    (hok : update_request request_id request db = .ok (db', updated)) :
    (updated.equipment_type =
      if request.equipment_type ≠ "" then request.equipment_type
      else db_request.equipment_type) ∧
    (updated.model = if request.model ≠ "" then request.model else db_request.model) ∧
    (updated.problem_description =
      if request.problem_description ≠ "" then request.problem_description
      else db_request.problem_description) ∧
    (updated.client_name =
      if request.client_name ≠ "" then request.client_name else db_request.client_name) ∧
    (updated.phone_number =
      if request.phone_number ≠ "" then request.phone_number
      else db_request.phone_number) ∧
    (updated.status = if request.status ≠ "" then request.status else db_request.status) ∧
    (updated.master_id =
      if request.master_id ≠ none ∧ request.master_id ≠ some 0 then request.master_id
      else db_request.master_id) := by
  simp only [update_request, hfind] at hok
  split at hok
  · simp only [Except.ok.injEq, Prod.mk.injEq] at hok
    obtain ⟨-, h2⟩ := hok
    subst h2
    refine ⟨?_, ?_, ?_, ?_, ?_, ?_, ?_⟩ <;>
      simp only [setFieldsIfTruthy, pyTruthyStr_iff, pyTruthyOptInt_iff]
  · exact absurd hok (by simp)

/-- Witness for C1: the claim's own example — a request stored with
`problem_description = "screen cracked"` updated with a payload whose
`problem_description` is the empty string keeps "screen cracked". -/
theorem update_request_overwrites_only_truthy_witness :
    (exDb.requests.find? (fun r => r.id == 1) = some exRow) ∧
    (update_request 1 exUpdatePayload exDb = .ok (exDbUpdated, exRowUpdated)) ∧
    exRowUpdated.problem_description = "screen cracked" := by
  refine ⟨by decide, by rfl, ?_⟩
  have h := (update_request_overwrites_only_truthy exDb 1 exUpdatePayload exRow
    exDbUpdated exRowUpdated (by decide) (by rfl)).2.2.1
  rw [if_neg (by decide)] at h
  exact h.trans (by decide)

/-- Claim C3: `read_request` returns the stored record whose id equals
`request_id` when such a row exists, fails with HTTP 404 when no row
matches, and never returns a record for a non-existent id. -/
theorem read_request_found_or_404 (db : DB) (request_id : Nat) :
    (∀ r : RepairRequest, read_request request_id db = .ok r →
      r ∈ db.requests ∧ r.id = request_id) ∧
    ((∀ r ∈ db.requests, r.id ≠ request_id) →
      read_request request_id db = .error (.httpException 404 "Request not found")) ∧
    ((∃ r ∈ db.requests, r.id = request_id) →
      ∃ r, read_request request_id db = .ok r ∧ r ∈ db.requests ∧ r.id = request_id) := by
  refine ⟨?_, ?_, ?_⟩
  · intro r hok
    unfold read_request at hok
    cases hfind : db.requests.find? (fun x => x.id == request_id) with
    | none => rw [hfind] at hok; exact absurd hok (by simp)
    | some x =>
      rw [hfind] at hok
      simp only [Except.ok.injEq] at hok
      subst hok
      refine ⟨List.mem_of_find?_eq_some hfind, ?_⟩
      simpa using List.find?_some hfind
  · intro hnone
    unfold read_request
    have hfind : db.requests.find? (fun x => x.id == request_id) = none := by
      rw [List.find?_eq_none]
      intro x hx
      simpa using hnone x hx
    rw [hfind]
  · intro hex
    obtain ⟨r, hr, hid⟩ := hex
    have hs : (db.requests.find? (fun x => x.id == request_id)).isSome := by
      rw [List.find?_isSome]
      exact ⟨r, hr, by simpa using hid⟩
    cases hfind : db.requests.find? (fun x => x.id == request_id) with
    | none => rw [hfind] at hs; simp at hs
    | some x =>
      refine ⟨x, ?_, List.mem_of_find?_eq_some hfind, by simpa using List.find?_some hfind⟩
      unfold read_request
      rw [hfind]

/-- Witness for C3: fetching id 99 (absent from `exDb`) yields the 404
error; fetching id 1 yields the stored row. -/
theorem read_request_found_or_404_witness :
    ((∀ r ∈ exDb.requests, r.id ≠ 99) →
      read_request 99 exDb = .error (.httpException 404 "Request not found")) ∧
    read_request 99 exDb = .error (.httpException 404 "Request not found") ∧
    read_request 1 exDb = .ok exRow := by
  have h := (read_request_found_or_404 exDb 99).2.1
  exact ⟨h, h (by decide), by rfl⟩

/-- Claim C4: `get_statistics` reports exactly the number of stored
repair requests whose status is the "completed" value ("завершена"), and
a constant placeholder string as the average time, regardless of the
data; in the spec's scenario of 3 completed and 2 new requests it reports
a count of 3. -/
theorem get_statistics_counts_completed :
    (∀ db : DB,
      (get_statistics db).completed_requests_count =
        db.requests.countP (fun r => r.status == "завершена") ∧
      (get_statistics db).average_time = "Ожидание реализации") ∧
    (get_statistics exampleDb5).completed_requests_count = 3 ∧
    (get_statistics exampleDb5).average_time = "Ожидание реализации" := by
  refine ⟨fun db => ⟨?_, rfl⟩, by decide, rfl⟩
  simp [get_statistics, List.countP_eq_length_filter]

/-- Claim C5: `read_requests` returns the stored requests in insertion
order with the first `skip` rows omitted and at most `limit` rows
returned, never an error; with the 5 stored requests of `exampleDb5`,
`limit = 2` returns exactly 2 records and `skip = 3, limit = 10` returns
the remaining 2. -/
theorem read_requests_pagination :
    (∀ (db : DB) (skip limit : Nat),
      (read_requests skip limit db).length = min limit (db.requests.length - skip) ∧
      ∀ i : Nat, i < limit →
        (read_requests skip limit db)[i]? = db.requests[skip + i]?) ∧
    (read_requests 0 2 exampleDb5).length = 2 ∧
    read_requests 3 10 exampleDb5 = exampleDb5.requests.drop 3 ∧
    (read_requests 3 10 exampleDb5).length = 2 := by
  refine ⟨fun db skip limit => ⟨?_, ?_⟩, by decide, by decide, by decide⟩
  · simp [read_requests, List.length_take, List.length_drop]
  · intro i hi
    rw [read_requests, List.getElem?_take_of_lt hi, List.getElem?_drop]

/-- Witness for C5: the third returned record of the page `skip = 3,
limit = 10` is the table's sixth row slot (here empty, as only 5 rows
exist), and the first is the fourth stored row. -/
theorem read_requests_pagination_witness :
    (0 : Nat) < 10 ∧ (2 : Nat) < 10 ∧
    (read_requests 3 10 exampleDb5)[0]? = exampleDb5.requests[3 + 0]? ∧
    (read_requests 3 10 exampleDb5)[2]? = exampleDb5.requests[3 + 2]? :=
  ⟨by decide, by decide,
   (read_requests_pagination.1 exampleDb5 3 10).2 0 (by decide),
   (read_requests_pagination.1 exampleDb5 3 10).2 2 (by decide)⟩

/-- Claim C6: creating a repair request and fetching it by the returned
id yields a record equal to the creation payload in all payload fields,
with the generated id and `request_date` set to the creation time (the
payload cannot supply a date; the column default always applies). -/
theorem create_then_read_roundtrip
    (request : RepairRequestCreate) (now : Nat) (db : DB)
    (db' : DB) (row : RepairRequest)
    (hfresh : ∀ r ∈ db.requests, r.id ≠ db.next_request_id)
    (hok : create_request request now db = .ok (db', row)) :
    read_request row.id db' = .ok row ∧
    row.equipment_type = request.equipment_type ∧
    row.model = request.model ∧
    row.problem_description = request.problem_description ∧
    row.client_name = request.client_name ∧
    row.phone_number = request.phone_number ∧
    row.status = request.status ∧
    row.master_id = request.master_id ∧
    row.id = db.next_request_id ∧
    row.request_date = now := by
  obtain ⟨-, hrow, hdb'⟩ := create_request_inv request now db db' row hok
  subst hrow
  subst hdb'
  refine ⟨?_, rfl, rfl, rfl, rfl, rfl, rfl, rfl, rfl, rfl⟩
  have hnone : db.requests.find? (fun r => r.id == db.next_request_id) = none := by
    rw [List.find?_eq_none]
    intro x hx
    simpa using hfresh x hx
  simp [read_request, hnone]

/-- Witness for C6: creating the spec's example payload on the fresh
database and fetching the returned id 1 gives back the same record, with
`request_date` equal to the creation time 100. -/
theorem create_then_read_roundtrip_witness :
    (∀ r ∈ DB.empty.requests, r.id ≠ DB.empty.next_request_id) ∧
    create_request exCreatePayload 100 DB.empty = .ok (exDb, exRow) ∧
    read_request exRow.id exDb = .ok exRow ∧
    exRow.problem_description = exCreatePayload.problem_description ∧
    exRow.request_date = 100 := by
  have h := create_then_read_roundtrip exCreatePayload 100 DB.empty exDb exRow
    (by decide) (by rfl)
  exact ⟨by decide, by rfl, h.1, h.2.2.2.1, h.2.2.2.2.2.2.2.2.2⟩

/-- Claim C2 counterexample: creating the user ("alice", "secret123",
"admin") succeeds and returns the persisted row; the row's fields are the
username, the bcrypt hash and the role, and none of them — in particular
not its only password-holding field, `hashed_password` — is populated
with the original plaintext password. -/
theorem create_user_response_counterexample :
    create_user exampleHashFn exAliceCreate DB.empty = .ok (exDbAlice, exAliceRow) ∧
    exAliceRow.hashed_password ≠ exAliceCreate.password ∧
    exAliceRow.username ≠ exAliceCreate.password ∧
    exAliceRow.role ≠ exAliceCreate.password :=
  ⟨by rfl, by decide, by decide, by decide⟩

/-- Claim C2 amended: the user-creation handler returns the persisted
`User` row, whose fields are the input username, the hashed password
(`hashFn` applied to the input password) and the input role; whenever the
hash differs from its input — as a bcrypt hash always does — the
plaintext password is not in the password-holding field of the response. -/
theorem create_user_response_is_stored_row
    (hashFn : String → String) (user : UserCreate) (db db' : DB) (row : User)
    (hok : create_user hashFn user db = .ok (db', row))
    (hne : hashFn user.password ≠ user.password) :
    row.username = user.username ∧
    row.hashed_password = hash_password hashFn user.password ∧
    row.role = user.role ∧
    row.hashed_password ≠ user.password := by
  obtain ⟨-, hrow, -⟩ := create_user_inv hashFn user db db' row hok
  subst hrow
  exact ⟨rfl, rfl, rfl, hne⟩

/-- Witness for C2's amended claim at the concrete Alice example. -/
theorem create_user_response_is_stored_row_witness :
    create_user exampleHashFn exAliceCreate DB.empty = .ok (exDbAlice, exAliceRow) ∧
    exampleHashFn exAliceCreate.password ≠ exAliceCreate.password ∧
    exAliceRow.hashed_password = hash_password exampleHashFn exAliceCreate.password ∧
    exAliceRow.hashed_password ≠ exAliceCreate.password := by
  have h := create_user_response_is_stored_row exampleHashFn exAliceCreate DB.empty
    exDbAlice exAliceRow (by rfl) (exampleHashFn_ne _)
  exact ⟨by rfl, exampleHashFn_ne _, h.2.1, h.2.2.2⟩

/-- Every user row in a state reached from `db` either was already in
`db` or was created by a `createUser` request of the run, and then stores
the hash of that request's password. -/
theorem foldl_users_from_creations (hashFn : String → String) :
    ∀ (ops : List Op) (db : DB) (u : User),
      u ∈ (ops.foldl (execOp hashFn) db).users →
      u ∈ db.users ∨ ∃ user : UserCreate,
        Op.createUser user ∈ ops ∧
        u.hashed_password = hash_password hashFn user.password := by
  intro ops
  induction ops with
  | nil => intro db u hu; exact Or.inl hu
  | cons op rest ih =>
    intro db u hu
    rcases ih (execOp hashFn db op) u hu with h | ⟨user, hmem, hhash⟩
    · cases op with
      | createUser user =>
        cases hcu : create_user hashFn user db with
        | error e =>
          simp only [execOp, hcu] at h
          exact Or.inl h
        | ok p =>
          obtain ⟨db', row⟩ := p
          simp only [execOp, hcu] at h
          obtain ⟨-, hrow, hdb'⟩ := create_user_inv hashFn user db db' row hcu
          rw [hdb'] at h
          simp only [List.mem_append, List.mem_singleton] at h
          rcases h with h | h
          · exact Or.inl h
          · subst h
            exact Or.inr ⟨user, List.mem_cons_self _ _, by rw [hrow]⟩
      | createRequest request now =>
        cases hcr : create_request request now db with
        | error e =>
          simp only [execOp, hcr] at h
          exact Or.inl h
        | ok p =>
          obtain ⟨db', row⟩ := p
          simp only [execOp, hcr] at h
          obtain ⟨-, -, hdb'⟩ := create_request_inv request now db db' row hcr
          rw [hdb'] at h
          exact Or.inl h
      | updateRequest request_id request =>
        cases hur : update_request request_id request db with
        | error e =>
          simp only [execOp, hur] at h
          exact Or.inl h
        | ok p =>
          obtain ⟨db', updated⟩ := p
          simp only [execOp, hur] at h
          obtain ⟨dr, -, -, -, hdb'⟩ := update_request_inv request_id request db db' updated hur
          rw [hdb'] at h
          exact Or.inl h
    · exact Or.inr ⟨user, List.mem_cons_of_mem _ hmem, hhash⟩

/-- Claim C7: every persisted user row's `hashed_password` is the output
of the (salted, here abstracted) hash function applied to the password of
the creation call that produced it, and — whenever the hash never equals
its input, as for bcrypt — no reachable user row contains that plaintext
password. -/
theorem user_rows_store_only_hashes
    (hashFn : String → String) (hne : ∀ p, hashFn p ≠ p) (ops : List Op) :
    (∀ (user : UserCreate) (db db' : DB) (row : User),
      create_user hashFn user db = .ok (db', row) →
      row.hashed_password = hash_password hashFn user.password) ∧
    (∀ u ∈ (execOps hashFn ops).users, ∃ user : UserCreate,
      Op.createUser user ∈ ops ∧
      u.hashed_password = hash_password hashFn user.password ∧
      u.hashed_password ≠ user.password) := by
  constructor
  · intro user db db' row hok
    obtain ⟨-, hrow, -⟩ := create_user_inv hashFn user db db' row hok
    rw [hrow]
  · intro u hu
    rcases foldl_users_from_creations hashFn ops DB.empty u hu with h | ⟨user, hmem, hhash⟩
    · simp [DB.empty] at h
    · exact ⟨user, hmem, hhash, by rw [hhash]; exact hne user.password⟩

/-- Witness for C7: under the concrete hash stand-in, the state reached
by creating Alice holds only rows hashed from some creation call. -/
theorem user_rows_store_only_hashes_witness :
    (∀ p, exampleHashFn p ≠ p) ∧
    (∀ u ∈ (execOps exampleHashFn [Op.createUser exAliceCreate]).users,
      ∃ user : UserCreate,
        Op.createUser user ∈ [Op.createUser exAliceCreate] ∧
        u.hashed_password = hash_password exampleHashFn user.password ∧
        u.hashed_password ≠ user.password) :=
  ⟨exampleHashFn_ne,
   (user_rows_store_only_hashes exampleHashFn exampleHashFn_ne [Op.createUser exAliceCreate]).2⟩

/-- Claim C8: a creation or update supplying a status outside the three
enum values is not rejected by any validation in the handlers — it fails
only at the (spec-modelled) storage boundary, as an integrity error — and
consequently every repair request in every reachable state has one of the
three declared status values. -/
theorem status_enum_invariant (hashFn : String → String) :
    (∀ (request : RepairRequestCreate) (now : Nat) (db : DB),
      storageAcceptsStatus request.status = false →
      create_request request now db = .error .integrityError) ∧
    (∀ (request_id : Nat) (request : RepairRequestCreate) (db : DB)
        (db_request : RepairRequest),
      db.requests.find? (fun r => r.id == request_id) = some db_request →
      storageAcceptsStatus (setFieldsIfTruthy db_request request).status = false →
      update_request request_id request db = .error .integrityError) ∧
    (∀ ops : List Op, ∀ r ∈ (execOps hashFn ops).requests,
      r.status ∈ statusEnumValues) := by
  refine ⟨?_, ?_, ?_⟩
  · intro request now db hacc
    simp [create_request, hacc]
  · intro request_id request db db_request hfind hacc
    simp [update_request, hfind, hacc]
  · intro ops
    have h0 : ∀ r ∈ DB.empty.requests, r.status ∈ statusEnumValues := by
      intro r hr
      simp [DB.empty] at hr
    have hstep : ∀ db op, (∀ r ∈ db.requests, r.status ∈ statusEnumValues) →
        ∀ r ∈ (execOp hashFn db op).requests, r.status ∈ statusEnumValues := by
      intro db op hP
      cases op with
      | createUser user =>
        cases hcu : create_user hashFn user db with
        | error e => simpa [execOp, hcu] using hP
        | ok p =>
          obtain ⟨db', row⟩ := p
          obtain ⟨-, -, hdb'⟩ := create_user_inv hashFn user db db' row hcu
          simp only [execOp, hcu]
          rw [hdb']
          exact hP
      | createRequest request now =>
        cases hcr : create_request request now db with
        | error e => simpa [execOp, hcr] using hP
        | ok p =>
          obtain ⟨db', row⟩ := p
          obtain ⟨hacc, hrow, hdb'⟩ := create_request_inv request now db db' row hcr
          simp only [execOp, hcr]
          rw [hdb']
          intro r hr
          simp only [List.mem_append, List.mem_singleton] at hr
          rcases hr with hr | hr
          · exact hP r hr
          · subst hr
            rw [hrow]
            exact (storageAcceptsStatus_iff request.status).mp hacc
      | updateRequest request_id request =>
        cases hur : update_request request_id request db with
        | error e => simpa [execOp, hur] using hP
        | ok p =>
          obtain ⟨db', updated⟩ := p
          obtain ⟨dr, hfind, hupd, hacc, hdb'⟩ :=
            update_request_inv request_id request db db' updated hur
          simp only [execOp, hur]
          rw [hdb']
          intro r hr
          simp only [List.mem_map] at hr
          obtain ⟨x, hx, hfx⟩ := hr
          by_cases hxid : (x.id == request_id) = true
          · rw [if_pos hxid] at hfx
            subst hfx
            exact (storageAcceptsStatus_iff updated.status).mp hacc
          · rw [if_neg hxid] at hfx
            subst hfx
            exact hP x hx
    exact execOps_invariant
      (P := fun db => ∀ r ∈ db.requests, r.status ∈ statusEnumValues)
      hashFn hstep h0 ops

/-- Witness for C8: the invalid status "сломана" makes creation fail as a
storage integrity error, and after a run that attempts it the reachable
state still holds only the three declared values. -/
theorem status_enum_invariant_witness :
    storageAcceptsStatus "сломана" = false ∧
    create_request (exCreateWith "сломана" "x") 9 exDb = .error .integrityError ∧
    (∀ r ∈ (execOps exampleHashFn
        (exOps5 ++ [Op.createRequest (exCreateWith "сломана" "x") 9])).requests,
      r.status ∈ statusEnumValues) := by
  refine ⟨by decide, ?_, ?_⟩
  · exact (status_enum_invariant exampleHashFn).1 (exCreateWith "сломана" "x") 9 exDb
      (by decide)
  · exact (status_enum_invariant exampleHashFn).2.2
      (exOps5 ++ [Op.createRequest (exCreateWith "сломана" "x") 9])

/-- Claim C9: creating a user whose username is already taken fails with
the storage-level uniqueness violation, and every reachable state has
pairwise-distinct usernames — a duplicate creation never silently
succeeds. -/
theorem username_uniqueness (hashFn : String → String) :
    (∀ (user : UserCreate) (db : DB),
      (∃ u ∈ db.users, u.username = user.username) →
      create_user hashFn user db = .error .integrityError) ∧
    (∀ ops : List Op, ((execOps hashFn ops).users.map User.username).Nodup) := by
  constructor
  · intro user db hex
    obtain ⟨u, hu, he⟩ := hex
    have hany : db.users.any (fun x => x.username == user.username) = true :=
      List.any_eq_true.mpr ⟨u, hu, by simpa using he⟩
    simp [create_user, hany]
  · intro ops
    have h0 : ((DB.empty).users.map User.username).Nodup := by
      simp [DB.empty]
    have hstep : ∀ db op, (db.users.map User.username).Nodup →
        ((execOp hashFn db op).users.map User.username).Nodup := by
      intro db op hP
      cases op with
      | createUser user =>
        cases hcu : create_user hashFn user db with
        | error e => simpa [execOp, hcu] using hP
        | ok p =>
          obtain ⟨db', row⟩ := p
          obtain ⟨hany, hrow, hdb'⟩ := create_user_inv hashFn user db db' row hcu
          subst hrow
          simp only [execOp, hcu]
          rw [hdb']
          have hnotin : user.username ∉ db.users.map User.username := by
            intro hmem
            obtain ⟨x, hx, hxe⟩ := List.mem_map.mp hmem
            have hx2 : db.users.any (fun u => u.username == user.username) = true :=
              List.any_eq_true.mpr ⟨x, hx, by simpa using hxe⟩
            rw [hany] at hx2
            exact absurd hx2 (by simp)
          simp only [List.map_append, List.map_cons, List.map_nil]
          rw [List.nodup_append]
          refine ⟨hP, by simp, ?_⟩
          intro a ha hb
          simp only [List.mem_singleton] at hb
          subst hb
          exact hnotin ha
      | createRequest request now =>
        cases hcr : create_request request now db with
        | error e => simpa [execOp, hcr] using hP
        | ok p =>
          obtain ⟨db', row⟩ := p
          obtain ⟨-, -, hdb'⟩ := create_request_inv request now db db' row hcr
          simp only [execOp, hcr]
          rw [hdb']
          exact hP
      | updateRequest request_id request =>
        cases hur : update_request request_id request db with
        | error e => simpa [execOp, hur] using hP
        | ok p =>
          obtain ⟨db', updated⟩ := p
          obtain ⟨dr, -, -, -, hdb'⟩ :=
            update_request_inv request_id request db db' updated hur
          simp only [execOp, hur]
          rw [hdb']
          exact hP
    exact execOps_invariant
      (P := fun db => (db.users.map User.username).Nodup)
      hashFn hstep h0 ops

/-- Witness for C9: creating a second "alice" fails with the integrity
error, and a run attempting the duplicate still has distinct usernames. -/
theorem username_uniqueness_witness :
    (∃ u ∈ exDbAlice.users, u.username = "alice") ∧
    create_user exampleHashFn
      { username := "alice", password := "hunter2", role := "master" } exDbAlice =
      .error .integrityError ∧
    ((execOps exampleHashFn
        [Op.createUser exAliceCreate,
         Op.createUser { username := "alice", password := "hunter2", role := "master" }]).users.map
      User.username).Nodup := by
  refine ⟨⟨exAliceRow, by decide, rfl⟩, ?_, ?_⟩
  · exact (username_uniqueness exampleHashFn).1 _ exDbAlice ⟨exAliceRow, by decide, rfl⟩
  · exact (username_uniqueness exampleHashFn).2 _

/-- Claim C10: once a repair request has a non-null `masterId`, no update
can set it back to null — a payload with `masterId` absent, null, or zero
is falsy and skipped, so the row resulting from any successful update
(and every row with that id in the new state) still has a master
assigned. -/
theorem master_id_never_unassigned
    (db : DB) (request_id : Nat) (request : RepairRequestCreate)
    (db_request : RepairRequest) (db' : DB) (updated : RepairRequest)
    (hfind : db.requests.find? (fun r => r.id == request_id) = some db_request)
    (hmaster : db_request.master_id ≠ none)
    (hok : update_request request_id request db = .ok (db', updated)) :
    updated.master_id ≠ none ∧
    ∀ r' ∈ db'.requests, r'.id = request_id → r'.master_id ≠ none := by
  obtain ⟨dr, hfind', hupd, -, hdb'⟩ :=
    update_request_inv request_id request db db' updated hok
  rw [hfind] at hfind'
  have hdr : dr = db_request := by
    injection hfind' with h
    exact h.symm
  subst hdr
  have h1 : updated.master_id ≠ none := by
    rw [hupd]
    simp only [setFieldsIfTruthy]
    cases hmi : request.master_id with
    | none => simpa [pyTruthyOptInt] using hmaster
    | some n =>
      by_cases hn : n = 0
      · subst hn
        simpa [pyTruthyOptInt] using hmaster
      · simp [pyTruthyOptInt, hn]
  refine ⟨h1, ?_⟩
  intro r' hr' hid
  rw [hdb'] at hr'
  simp only [List.mem_map] at hr'
  obtain ⟨x, hx, hfx⟩ := hr'
  by_cases hxid : (x.id == request_id) = true
  · rw [if_pos hxid] at hfx
    subst hfx
    exact h1
  · rw [if_neg hxid] at hfx
    subst hfx
    exact absurd (by simpa using hid) hxid

/-- Witness for C10: `exRow` has master 7; updating it with a payload
whose `master_id` is `None` keeps the master assigned. -/
theorem master_id_never_unassigned_witness :
    (exDb.requests.find? (fun r => r.id == 1) = some exRow) ∧
    exRow.master_id ≠ none ∧
    update_request 1 exUpdatePayload exDb = .ok (exDbUpdated, exRowUpdated) ∧
    exRowUpdated.master_id ≠ none := by
  refine ⟨by decide, by decide, by rfl, ?_⟩
  exact (master_id_never_unassigned exDb 1 exUpdatePayload exRow exDbUpdated exRowUpdated
    (by decide) (by decide) (by rfl)).1

end RepairService
